import Mathlib

/-!
Shallow embedding of `src/src/ChaincodeMockStub.ts` (the in-memory mock of the
fabric-shim chaincode stub) and verification of its specification.

Modelling conventions, matching the JavaScript runtime semantics of the source:

* The stub's maps (`state`, `history`, `privateCollections`, `invokables`) are
  declared as `Map` objects in the source, but every access to them is a plain
  property access (`this.state[key] = value`, `Object.keys(this.state)`,
  `delete this.state[key]`), never `Map.get`/`Map.set`.  Own string properties
  of a JavaScript object enumerate in insertion order (re-assignment keeps the
  original position), so each map is embedded as an association list in
  insertion order: assignment to a present key updates it in place, assignment
  to a fresh key appends, and `delete` removes the entry.
* A `Buffer` value is embedded as an opaque byte list `Bytes`.
* Fields the constructor never initialises (`txID`) are `Option`-valued:
  `none` is JavaScript `undefined`.  The guard `this.txID == ''` is loose
  equality, which is `false` for `undefined`, so it is embedded as the test
  `txID = some ""`.
* A rejected promise / thrown error is `Except.error`; a resolved promise is
  `Except.ok`.  Reads that just return a possibly-undefined stored value
  (`getState`, `getPrivateData`, `getEvent`) are `Option`-valued.
* The timestamp attached to history records (`new MockProtoTimestamp()`) is
  constructed by an external collaborator (google-protobuf) and no claim
  inspects it, so the embedded `KeyModification` omits it.
-/

/-- A `Buffer` payload, as an opaque byte sequence. -/
abbrev Bytes := List Nat

/-- An insertion-ordered association list: the embedding of a JavaScript
object's own string properties (see the module comment). -/
abbrev ObjMap (α : Type) := List (String × α)

/-- Property read `m[k]`: the value at the key, or `none` for `undefined`. -/
def objGet {α : Type} : ObjMap α → String → Option α
  | [], _ => none
  | (k', v) :: rest, k => if k' = k then some v else objGet rest k

/-- Property write `m[k] = v`: update in place if the key is present
(JavaScript keeps the original enumeration position), append otherwise. -/
def objSet {α : Type} : ObjMap α → String → α → ObjMap α
  | [], k, v => [(k, v)]
  | (k', v') :: rest, k, v =>
      if k' = k then (k, v) :: rest else (k', v') :: objSet rest k v

/-- Property removal `delete m[k]`. -/
def objDelete {α : Type} : ObjMap α → String → ObjMap α
  | [], _ => []
  | (k', v') :: rest, k => if k' = k then rest else (k', v') :: objDelete rest k

/-- `Object.keys m`: the keys in enumeration (insertion) order. -/
def objKeys {α : Type} (m : ObjMap α) : List String := m.map Prod.fst

/-- Modelled from the spec: `Helpers.strcmp` lives in `src/utils/helpers.ts`,
which is not part of the sources; the spec fixes the key-ordering contract as
byte-wise lexicographic comparison of key strings (UTF-8 byte order coincides
with code-point order, used here).  Returns a negative, zero or positive
number as `a` is below, equal to or above `b`. -/
def strcmpChars : List Char → List Char → Int
  | [], [] => 0
  | [], _ :: _ => -1
  | _ :: _, [] => 1
  | x :: xs, y :: ys =>
      if x.val < y.val then -1
      else if y.val < x.val then 1
      else strcmpChars xs ys

/-- Byte-wise lexicographic string comparison (see `strcmpChars`). -/
def strcmp (a b : String) : Int := strcmpChars a.data b.data

/-- One entry of a key's history log (`KeyModification` from fabric-shim).
`value` is the Buffer stored in the record (`none` when the source stores
JavaScript `undefined`, as `deleteState` does for a key with no live value);
`tx_id` is the transaction id field (`none` when `this.txID` is still
`undefined`).  The timestamp field is omitted (see the module comment). -/
structure KeyModification where
  is_delete : Bool
  value : Option Bytes
  tx_id : Option String
  deriving Repr, DecidableEq

/-- A `ChaincodeResponse` as returned by a chaincode invocation. -/
structure ChaincodeResponse where
  status : Nat
  message : String
  payload : Bytes
  deriving Repr, DecidableEq

/-- A peer stub registered through `mockPeerChaincode`.  In the source the
registry stores any `MockStub`; its `mockInvoke(uuid, args)` runs the peer's
own chaincode (`this.cc.Invoke`, an external `ChaincodeInterface`) inside a
transaction with the given uuid and returns that chaincode's response.  The
chaincode under the peer stub is external to this repository, so the peer is
embedded as its observable response function: what `mockInvoke` answers for a
given uuid (possibly `undefined`) and argument list. -/
structure Peer where
  mockInvoke : Option String → List Bytes → ChaincodeResponse

/-- The `ChaincodeMockStub` instance state: exactly the fields of the source
class that the verified operations touch.  `logger`, `txTimestamp`,
`signedProposal`, `transientMap`, `event`, `mspId` and `usercert` are not
read by any verified operation and are omitted.  All defaults mirror the
field initialisers of the class: `txID` and `args` have none (JavaScript
`undefined`; `args` is embedded as `[]` since only its list content is ever
observed), the maps start empty. -/
structure ChaincodeMockStub where
  txID : Option String := none
  args : List String := []
  state : ObjMap Bytes := []
  history : ObjMap (List KeyModification) := []
  privateCollections : ObjMap (ObjMap Bytes) := []
  invokables : ObjMap Peer := []

/-- A freshly constructed stub: the constructor only sets `name`, `cc`,
`usercert` and the logger, none of which is embedded, so every embedded
field keeps its initialiser. -/
def freshStub : ChaincodeMockStub := {}

/-- `mockTransactionStart(txid, transientMap?)`: sets `this.txID = txid`
(the signed-proposal placeholder, timestamp and transient map it also sets
are not embedded, see `ChaincodeMockStub`). -/
def mockTransactionStart (st : ChaincodeMockStub) (txid : String) :
    ChaincodeMockStub :=
  { st with txID := some txid }

/-- `mockTransactionEnd(uuid)`: clears the transaction id to `''`. -/
def mockTransactionEnd (st : ChaincodeMockStub) : ChaincodeMockStub :=
  { st with txID := some "" }

/-- `getArgs()`: returns `this.args`. -/
def getArgs (st : ChaincodeMockStub) : List String := st.args

/-- `getStringArgs()`: same as `getArgs()` — it returns `this.args` itself
(in the source this is the very same array object, which matters below). -/
def getStringArgs (st : ChaincodeMockStub) : List String := st.args

/-- `getFunctionAndParameters()`: takes `params = this.getStringArgs()` —
an alias of the `this.args` array — and, when non-empty, reads `params[0]`
as the function name and then `params.splice(0, 1)` removes that first
element from the shared array, mutating `this.args`.  The embedding returns
the `(fcn, params)` result together with the mutated stub. -/
def getFunctionAndParameters (st : ChaincodeMockStub) :
    (String × List String) × ChaincodeMockStub :=
  match st.args with
  | [] => (("", []), st)
  | f :: rest => ((f, rest), { st with args := rest })

/-- `getState(key)`: returns `this.state[key]` directly, with no transaction
requirement; `none` is an absent key. -/
def getState (st : ChaincodeMockStub) (key : String) : Option Bytes :=
  objGet st.state key

/-- `putState(key, value)`: rejects when `this.txID == ''` (loose equality,
hence only when the id is the empty string — an `undefined` id passes);
otherwise stores the value, initialises the key's history log to `[]` when
the log is still `undefined` (`!this.history[key]`; an empty array is truthy,
so only `undefined` triggers this), and pushes a non-delete record carrying
the value and `this.txID`. -/
def putState (st : ChaincodeMockStub) (key : String) (value : Bytes) :
    Except String ChaincodeMockStub :=
  if st.txID = some "" then
    Except.error
      "Cannot putState without a transaction - call stub.mockTransactionStart()"
  else
    Except.ok
      { st with
        state := objSet st.state key value
        history := objSet st.history key
          (((objGet st.history key).getD []) ++
            [{ is_delete := false, value := some value, tx_id := st.txID }]) }

/-- `deleteState(key)`: reads the live value, then calls
`this.history[key].push(...)` — which throws a `TypeError` when the key has
no history log (`this.history[key]` is `undefined`) — appends a delete-tagged
record carrying that pre-delete value and `this.txID`, and removes the key
from the live state.  No transaction is required. -/
def deleteState (st : ChaincodeMockStub) (key : String) :
    Except String ChaincodeMockStub :=
  match objGet st.history key with
  | none =>
      Except.error "TypeError: cannot read property push of undefined"
  | some log =>
      Except.ok
        { st with
          history := objSet st.history key
            (log ++
              [{ is_delete := true, value := objGet st.state key,
                 tx_id := st.txID }])
          state := objDelete st.state key }

/-- The filter predicate of `getStateByRange`: keep `k` when
`strcmp(k, startKey) >= 0 && strcmp(k, endKey) <= 0`, or unconditionally when
both bounds are the empty string. -/
def rangeGuard (k startKey endKey : String) : Bool :=
  (decide (0 ≤ strcmp k startKey) && decide (strcmp k endKey ≤ 0)) ||
    (startKey == "" && endKey == "")

/-- `getStateByRange(startKey, endKey)`: filters `Object.keys(this.state)` —
the keys in insertion order — by `rangeGuard` and maps each kept key to a
`{key, value: this.state[k]}` item.  The `MockStateQueryIterator` handed the
resulting array (its source is not under `src/`; per the spec it is a lazy
iterator over the point-in-time snapshot, yielding the items in array order)
is embedded as the item list itself. -/
def getStateByRange (st : ChaincodeMockStub) (startKey endKey : String) :
    List (String × Option Bytes) :=
  ((objKeys st.state).filter (fun k => rangeGuard k startKey endKey)).map
    (fun k => (k, objGet st.state k))

/-- Modelled from the spec: `CompositeKeys.MAX_UNICODE_RUNE_VALUE`
(`src/CompositeKeys.ts` is not among the sources); the spec calls it the
maximum-Unicode-codepoint suffix used to close a prefix range. -/
def MAX_UNICODE_RUNE_VALUE : String := String.singleton (Char.ofNat 1114111)

/-- Modelled from the spec: `CompositeKeys.createCompositeKey`
(`src/CompositeKeys.ts` is not among the sources); the spec describes the
composite key as the object-type token and the attribute strings joined with
a reserved minimum delimiter byte, each attribute terminated by it. -/
def createCompositeKey (objectType : String) (attributes : List String) :
    String :=
  objectType ++ String.singleton (Char.ofNat 0) ++
    String.join (attributes.map (fun a => a ++ String.singleton (Char.ofNat 0)))

/-- `getStateByPartialCompositeKey(objectType, attributes)`: builds the
partial composite key and delegates to `getStateByRange` from that key to
the key extended with `MAX_UNICODE_RUNE_VALUE`. -/
def getStateByPartialCompositeKey (st : ChaincodeMockStub)
    (objectType : String) (attributes : List String) :
    List (String × Option Bytes) :=
  let partialCompositeKey := createCompositeKey objectType attributes
  getStateByRange st partialCompositeKey
    (partialCompositeKey ++ MAX_UNICODE_RUNE_VALUE)

/-- `getHistoryForKey(key)`: the source wraps `this.history[key]` in a
`MockHistoryQueryIterator` (whose source is not under `src/`).  Modelled from
the spec for the missing iterator: reading the history of a never-written key
(the wrapped data is `undefined`) fails with the `UnknownKey` error, and an
existing log is yielded record by record in write order, embedded as the
record list itself. -/
def getHistoryForKey (st : ChaincodeMockStub) (key : String) :
    Except String (List KeyModification) :=
  match objGet st.history key with
  | none => Except.error "UnknownKey"
  | some log => Except.ok log

/-- `getPrivateData(collection, key)`: reads
`(this.privateCollections[collection] || {})[key]` — the key's value in the
named collection, with a missing collection read as the empty map. -/
def getPrivateData (st : ChaincodeMockStub) (collection key : String) :
    Option Bytes :=
  objGet ((objGet st.privateCollections collection).getD []) key

/-- `putPrivateData(collection, key, value)`: same transaction guard as
`putState`; lazily creates the collection on first write, then stores the
value under the key in that collection. -/
def putPrivateData (st : ChaincodeMockStub) (collection key : String)
    (value : Bytes) : Except String ChaincodeMockStub :=
  if st.txID = some "" then
    Except.error
      "Cannot putState without a transaction - call stub.mockTransactionStart()"
  else
    Except.ok
      { st with
        privateCollections := objSet st.privateCollections collection
          (objSet ((objGet st.privateCollections collection).getD []) key
            value) }

/-- `deletePrivateData(collection, key)`: reads the stored value and, when it
is truthy, calls `Map.prototype.delete` on the collection object.  Every
entry of a collection was stored as an own property
(`this.privateCollections[collection][key] = value`), while `Map.delete`
operates on the Map's internal entry table, which is never populated — so
the call removes nothing observable by the property reads used everywhere
else, and the stub is unchanged. -/
def deletePrivateData (st : ChaincodeMockStub) (_collection _key : String) :
    ChaincodeMockStub :=
  st

/-- `mockPeerChaincode(invokableChaincodeName, otherStub)`: registers the
peer under the given name in `this.invokables`. -/
def mockPeerChaincode (st : ChaincodeMockStub) (invokableChaincodeName : String)
    (otherStub : Peer) : ChaincodeMockStub :=
  { st with invokables := objSet st.invokables invokableChaincodeName otherStub }

/-- `invokeChaincode(chaincodeName, args, channel)`: qualifies the name as
`chaincodeName + '/' + channel` when the channel is non-empty, throws when no
peer is registered under the resulting key, and otherwise returns
`otherStub.mockInvoke(this.txID, args)` — the peer's response to the caller's
current transaction id. -/
def invokeChaincode (st : ChaincodeMockStub) (chaincodeName : String)
    (args : List Bytes) (channel : String) :
    Except String ChaincodeResponse :=
  let key := if channel ≠ "" then chaincodeName ++ "/" ++ channel
             else chaincodeName
  match objGet st.invokables key with
  | none =>
      Except.error ("Chaincode " ++ key ++
        " could not be found. Please create this using mockPeerChaincode.")
  | some otherStub => Except.ok (otherStub.mockInvoke st.txID args)

/-! ### Association-list lemmas -/

theorem objGet_objSet_self {α : Type} (m : ObjMap α) (k : String) (v : α) :
    objGet (objSet m k v) k = some v := by
  induction m with
  | nil => simp [objSet, objGet]
  | cons kv rest ih =>
      obtain ⟨k', v'⟩ := kv
      by_cases h : k' = k
      · simp [objSet, objGet, h]
      · simp [objSet, objGet, h, ih]

theorem objGet_objSet_ne {α : Type} (m : ObjMap α) {k k' : String}
    (h : k' ≠ k) (v : α) : objGet (objSet m k v) k' = objGet m k' := by
  induction m with
  | nil => simp [objSet, objGet, Ne.symm h]
  | cons kv rest ih =>
      obtain ⟨a, b⟩ := kv
      by_cases ha : a = k
      · subst ha
        simp [objSet, objGet, Ne.symm h]
      · simp [objSet, objGet, ha, ih]

theorem objGet_eq_none_of_not_mem {α : Type} (m : ObjMap α) (k : String)
    (h : k ∉ objKeys m) : objGet m k = none := by
  induction m with
  | nil => rfl
  | cons kv rest ih =>
      obtain ⟨a, b⟩ := kv
      rw [show objKeys ((a, b) :: rest) = a :: objKeys rest from rfl,
        List.mem_cons] at h
      push_neg at h
      simp [objGet, Ne.symm h.1, ih h.2]

theorem objGet_objDelete_self {α : Type} (m : ObjMap α) (k : String)
    (hnd : (objKeys m).Nodup) : objGet (objDelete m k) k = none := by
  induction m with
  | nil => rfl
  | cons kv rest ih =>
      obtain ⟨a, b⟩ := kv
      simp only [objKeys, List.map_cons, List.nodup_cons] at hnd
      by_cases ha : a = k
      · subst ha
        simp only [objDelete, if_pos rfl]
        exact objGet_eq_none_of_not_mem rest a hnd.1
      · simp [objDelete, objGet, ha, ih hnd.2]

theorem mem_objKeys_iff_isSome {α : Type} (m : ObjMap α) (k : String) :
    k ∈ objKeys m ↔ (objGet m k).isSome := by
  induction m with
  | nil => simp [objKeys, objGet]
  | cons kv rest ih =>
      obtain ⟨a, b⟩ := kv
      rw [show objKeys ((a, b) :: rest) = a :: objKeys rest from rfl,
        List.mem_cons]
      by_cases ha : a = k
      · subst ha
        simp [objGet]
      · simp [objGet, ha, Ne.symm ha, ih]

/-! ### C1: range scan -/

/-- A state reachable inside a transaction by writing key `"b"` and then key
`"a"` (see `getStateByRange_not_sorted_cex`, which proves this reachability);
its `Object.keys` enumeration order is `["b", "a"]`. -/
def stubOutOfOrder : ChaincodeMockStub :=
  { txID := some "t1"
    state := [("b", [1]), ("a", [2])]
    history :=
      [("b", [{ is_delete := false, value := some [1], tx_id := some "t1" }]),
       ("a", [{ is_delete := false, value := some [2], tx_id := some "t1" }])] }

/-- C1, counterexample: on the state obtained by putting key `"b"` and then
key `"a"` inside a transaction, `getStateByRange("a", "b")` yields its items
in the order `["b", "a"]`, although `"a"` precedes `"b"` in byte-wise
lexicographic order — the iterator does not yield keys in ascending byte
order (the source never sorts `Object.keys`, which enumerates in insertion
order). -/
theorem getStateByRange_not_sorted_cex :
    Except.bind (putState (mockTransactionStart freshStub "t1") "b" [1])
        (fun s => putState s "a" [2]) = Except.ok stubOutOfOrder
    ∧ (getStateByRange stubOutOfOrder "a" "b").map Prod.fst = ["b", "a"]
    ∧ strcmp "a" "b" < 0 :=
  ⟨rfl, by decide, by decide⟩

/-- C1 (amended): for every state map with distinct keys (as JavaScript
object properties are), `getStateByRange(startKey, endKey)` returns exactly
the live keys `k` with `startKey <= k <= endKey` under byte-wise
lexicographic comparison (both bounds empty being the all-keys sentinel),
each key exactly once — but in the state map's insertion (enumeration)
order, not in ascending byte order. -/
theorem getStateByRange_spec (st : ChaincodeMockStub) (startKey endKey : String)
    (hnd : (objKeys st.state).Nodup) :
    ((getStateByRange st startKey endKey).map Prod.fst
        = (objKeys st.state).filter (fun k => rangeGuard k startKey endKey))
    ∧ (∀ k, k ∈ (getStateByRange st startKey endKey).map Prod.fst
        ↔ ((getState st k).isSome ∧ rangeGuard k startKey endKey = true))
    ∧ ((getStateByRange st startKey endKey).map Prod.fst).Nodup := by
  have hmap : (getStateByRange st startKey endKey).map Prod.fst
      = (objKeys st.state).filter (fun k => rangeGuard k startKey endKey) := by
    simp only [getStateByRange, List.map_map]
    rw [show (Prod.fst ∘ fun k => (k, objGet st.state k)) = id from rfl,
      List.map_id]
  refine ⟨hmap, fun k => ?_, ?_⟩
  · rw [hmap, List.mem_filter, mem_objKeys_iff_isSome]
    exact Iff.rfl
  · rw [hmap]
    exact hnd.filter _

/-- C1, witness for `getStateByRange_spec` at a concrete two-key state. -/
theorem getStateByRange_spec_witness :
    ((objKeys stubOutOfOrder.state).Nodup)
    ∧ ((getStateByRange stubOutOfOrder "a" "b").map Prod.fst
        = (objKeys stubOutOfOrder.state).filter
            (fun k => rangeGuard k "a" "b"))
    ∧ ("a" ∈ (getStateByRange stubOutOfOrder "a" "b").map Prod.fst
        ↔ ((getState stubOutOfOrder "a").isSome ∧ rangeGuard "a" "a" "b" = true)) :=
  have hnd : (objKeys stubOutOfOrder.state).Nodup := by decide
  ⟨hnd, (getStateByRange_spec stubOutOfOrder "a" "b" hnd).1,
    (getStateByRange_spec stubOutOfOrder "a" "b" hnd).2.1 "a"⟩

/-! ### C2: putState without a transaction -/

/-- C2, code-bug evidence: on a freshly constructed stub
`mockTransactionStart` has never run, so `this.txID` is still `undefined`;
the guard `this.txID == ''` is loose equality and `undefined == ''` is
`false`, so `putState` does NOT reject: it resolves successfully, writes the
live value and appends a history record whose `tx_id` is `undefined` — while
the no-transaction rejection (and unchanged maps) only happens once `txID`
is the empty string, e.g. after `mockTransactionEnd`.  `getState` indeed
succeeds without any transaction. -/
theorem putState_freshStub_not_rejected :
    putState freshStub "k" [7] =
      Except.ok { freshStub with
        state := [("k", [7])]
        history :=
          [("k", [{ is_delete := false, value := some [7], tx_id := none }])] }
    ∧ [("k", ([7] : Bytes))] ≠ freshStub.state
    ∧ putState (mockTransactionEnd freshStub) "k" [7] =
        Except.error
          "Cannot putState without a transaction - call stub.mockTransactionStart()"
    ∧ getState freshStub "k" = none :=
  ⟨rfl, by decide, rfl, rfl⟩

/-! ### C3: putState inside a transaction -/

/-- C3: with an active transaction id `t` (a non-empty id set by
`mockTransactionStart`), `putState(k, v)` succeeds, `getState(k)` then
returns `v`, and exactly the single non-delete record carrying `v` and `t`
is appended at the end of `k`'s history, every earlier record of `k` (and
every other key's history) unchanged. -/
theorem putState_appends_history (st : ChaincodeMockStub) (k : String)
    (v : Bytes) (t : String) (ht : st.txID = some t) (hne : t ≠ "") :
    ∃ st', putState st k v = Except.ok st'
      ∧ getState st' k = some v
      ∧ objGet st'.history k =
          some (((objGet st.history k).getD []) ++
            [{ is_delete := false, value := some v, tx_id := some t }])
      ∧ ∀ k', k' ≠ k → objGet st'.history k' = objGet st.history k' := by
  have hguard : ¬st.txID = some "" := by
    rw [ht]
    intro hc
    exact hne (Option.some.inj hc)
  refine ⟨{ st with
      state := objSet st.state k v
      history := objSet st.history k
        (((objGet st.history k).getD []) ++
          [{ is_delete := false, value := some v, tx_id := st.txID }]) },
    ?_, ?_, ?_, ?_⟩
  · simp [putState, hguard]
  · exact objGet_objSet_self st.state k v
  · rw [ht]
    exact objGet_objSet_self st.history k _
  · intro k' hk'
    exact objGet_objSet_ne st.history hk' _

/-- C3, witness for `putState_appends_history`: a put of `[1]` under key
`"k1"` in transaction `"t1"` starting from a fresh stub. -/
theorem putState_appends_history_witness :
    ("t1" : String) ≠ ""
    ∧ ∃ st', putState (mockTransactionStart freshStub "t1") "k1" [1] =
          Except.ok st'
        ∧ getState st' "k1" = some [1]
        ∧ objGet st'.history "k1" =
            some (((objGet (mockTransactionStart freshStub "t1").history
                "k1").getD []) ++
              [{ is_delete := false, value := some [1], tx_id := some "t1" }])
        ∧ ∀ k', k' ≠ "k1" → objGet st'.history k' =
            objGet (mockTransactionStart freshStub "t1").history k' :=
  ⟨by decide,
    putState_appends_history (mockTransactionStart freshStub "t1") "k1" [1]
      "t1" rfl (by decide)⟩

/-! ### C4: deleteState -/

/-- C4: whenever `deleteState(k)` completes (it throws on a key with no
history log, see `deleteState_unknown_key` below), the key is gone from the
live state and `k`'s history is its old log extended with exactly one
delete-tagged record whose value is the live value `k` had immediately
before the delete (`none` when it had none) and whose transaction id is the
current one. -/
theorem deleteState_spec (st : ChaincodeMockStub) (k : String)
    (st' : ChaincodeMockStub) (hnd : (objKeys st.state).Nodup)
    (h : deleteState st k = Except.ok st') :
    getState st' k = none
    ∧ ∃ log, objGet st.history k = some log
        ∧ objGet st'.history k =
            some (log ++ [{ is_delete := true, value := getState st k,
                            tx_id := st.txID }]) := by
  unfold deleteState at h
  cases hl : objGet st.history k with
  | none =>
      rw [hl] at h
      exact absurd h (by simp)
  | some log =>
      rw [hl] at h
      simp only [Except.ok.injEq] at h
      subst h
      refine ⟨objGet_objDelete_self st.state k hnd, log, rfl, ?_⟩
      exact objGet_objSet_self st.history k _

/-- The state `deleteState` of key `"a"` produces from `stubOutOfOrder`. -/
def stubAfterDelete : ChaincodeMockStub :=
  { txID := some "t1"
    state := [("b", [1])]
    history :=
      [("b", [{ is_delete := false, value := some [1], tx_id := some "t1" }]),
       ("a", [{ is_delete := false, value := some [2], tx_id := some "t1" },
              { is_delete := true, value := some [2], tx_id := some "t1" }])] }

/-- C4, witness for `deleteState_spec`: deleting key `"a"` of
`stubOutOfOrder`. -/
theorem deleteState_spec_witness :
    (objKeys stubOutOfOrder.state).Nodup
    ∧ deleteState stubOutOfOrder "a" = Except.ok stubAfterDelete
    ∧ (getState stubAfterDelete "a" = none
       ∧ ∃ log, objGet stubOutOfOrder.history "a" = some log
           ∧ objGet stubAfterDelete.history "a" =
               some (log ++
                 [{ is_delete := true, value := getState stubOutOfOrder "a",
                    tx_id := stubOutOfOrder.txID }])) :=
  ⟨by decide, rfl,
    deleteState_spec stubOutOfOrder "a" stubAfterDelete (by decide) rfl⟩

/-! ### C5: getHistoryForKey -/

/-- C5: reading the history of a key with no history log (a never-written
key) fails with the `UnknownKey` error, while a key that was written and
then deleted still yields its (non-empty) history — the two absent-key
situations are distinguished. -/
theorem getHistoryForKey_spec :
    (∀ (st : ChaincodeMockStub) (k : String), objGet st.history k = none →
        getHistoryForKey st k = Except.error "UnknownKey")
    ∧ ∀ (st st₁ st₂ : ChaincodeMockStub) (k : String) (v : Bytes) (t : String),
        st.txID = some t → t ≠ "" →
        putState st k v = Except.ok st₁ →
        deleteState st₁ k = Except.ok st₂ →
        ∃ log, getHistoryForKey st₂ k = Except.ok log ∧ log ≠ [] := by
  constructor
  · intro st k h
    simp [getHistoryForKey, h]
  · intro st st₁ st₂ k v t ht hne hput hdel
    have hguard : ¬st.txID = some "" := by
      rw [ht]
      intro hc
      exact hne (Option.some.inj hc)
    unfold putState at hput
    rw [if_neg hguard] at hput
    simp only [Except.ok.injEq] at hput
    subst hput
    unfold deleteState at hdel
    rw [show objGet (objSet st.history k
        (((objGet st.history k).getD []) ++
          [{ is_delete := false, value := some v, tx_id := st.txID }])) k =
        some (((objGet st.history k).getD []) ++
          [{ is_delete := false, value := some v, tx_id := st.txID }]) from
      objGet_objSet_self st.history k _] at hdel
    simp only [Except.ok.injEq] at hdel
    subst hdel
    refine ⟨(((objGet st.history k).getD []) ++
        [{ is_delete := false, value := some v, tx_id := st.txID }]) ++
        [{ is_delete := true, value := objGet (objSet st.state k v) k,
           tx_id := st.txID }], ?_, by simp⟩
    simp only [getHistoryForKey]
    rw [objGet_objSet_self]

/-- The one-key state `stubOutOfOrder` grew from: only `"b"` written yet. -/
def stubJustB : ChaincodeMockStub :=
  { txID := some "t1"
    state := [("b", [1])]
    history :=
      [("b", [{ is_delete := false, value := some [1], tx_id := some "t1" }])] }

/-- C5, witness for `getHistoryForKey_spec`: the never-written key fails on
a fresh stub; key `"a"`, written into `stubJustB` and deleted again, still
yields a non-empty history. -/
theorem getHistoryForKey_spec_witness :
    getHistoryForKey freshStub "never" = Except.error "UnknownKey"
    ∧ ∃ log, getHistoryForKey stubAfterDelete "a" = Except.ok log
        ∧ log ≠ [] :=
  ⟨getHistoryForKey_spec.1 freshStub "never" rfl,
    getHistoryForKey_spec.2 stubJustB stubOutOfOrder stubAfterDelete "a" [2]
      "t1" rfl (by decide) rfl rfl⟩

/-! ### C6: getFunctionAndParameters -/

/-- A stub whose current invocation arguments are `["f", "a"]`. -/
def stubWithArgs : ChaincodeMockStub := { args := ["f", "a"] }

/-- C6, counterexample: with stored arguments `["f", "a"]` the first call
correctly returns function `"f"` and parameters `["a"]`, but the `splice`
removes `"f"` from the stub's own argument array: `getArgs` afterwards
returns `["a"]` (not the original list), and an immediate second call
returns `("a", [])` — not the same result as the first call.  The transform
is not side-effect-free. -/
theorem getFunctionAndParameters_mutates_cex :
    (getFunctionAndParameters stubWithArgs).1 = ("f", ["a"])
    ∧ getArgs (getFunctionAndParameters stubWithArgs).2 = ["a"]
    ∧ getArgs stubWithArgs = ["f", "a"]
    ∧ (getFunctionAndParameters (getFunctionAndParameters stubWithArgs).2).1
        = ("a", [])
    ∧ (("a", []) : String × List String) ≠ ("f", ["a"]) :=
  ⟨rfl, rfl, rfl, rfl, by decide⟩

/-- C6 (amended): `getFunctionAndParameters` returns `args[0]` as the
function name and the remaining elements as parameters (empty name and
parameters when the list is empty, which leaves the stub unchanged) — but it
is not side-effect-free: it removes `args[0]` from the stub's stored
argument list (as observed by `getArgs`/`getStringArgs`), so a second call
in a row splits the shortened list instead of repeating the result.  All
stub state other than the argument list is unchanged. -/
theorem getFunctionAndParameters_spec (st : ChaincodeMockStub) :
    (st.args = [] → getFunctionAndParameters st = (("", []), st))
    ∧ ∀ f rest, st.args = f :: rest →
        (getFunctionAndParameters st).1 = (f, rest)
        ∧ getArgs (getFunctionAndParameters st).2 = rest
        ∧ getStringArgs (getFunctionAndParameters st).2 = rest
        ∧ (getFunctionAndParameters st).2.txID = st.txID
        ∧ (getFunctionAndParameters st).2.state = st.state
        ∧ (getFunctionAndParameters st).2.history = st.history
        ∧ (getFunctionAndParameters st).2.privateCollections
            = st.privateCollections
        ∧ (getFunctionAndParameters st).2.invokables = st.invokables := by
  constructor
  · intro h
    simp [getFunctionAndParameters, h]
  · intro f rest h
    simp [getFunctionAndParameters, h, getArgs, getStringArgs]

/-- C6, witness for `getFunctionAndParameters_spec` on arguments
`["f", "a"]`. -/
theorem getFunctionAndParameters_spec_witness :
    (getFunctionAndParameters stubWithArgs).1 = ("f", ["a"])
    ∧ getArgs (getFunctionAndParameters stubWithArgs).2 = ["a"]
    ∧ (getFunctionAndParameters stubWithArgs).2.state = stubWithArgs.state :=
  ⟨((getFunctionAndParameters_spec stubWithArgs).2 "f" ["a"] rfl).1,
    ((getFunctionAndParameters_spec stubWithArgs).2 "f" ["a"] rfl).2.1,
    ((getFunctionAndParameters_spec stubWithArgs).2 "f" ["a"] rfl).2.2.2.2.1⟩

/-! ### C7: invokeChaincode -/

/-- C7: `invokeChaincode(name, args, channel)` looks the peer up under
`name + "/" + channel` when the channel is non-empty and under `name`
otherwise; it fails with the chaincode-not-found error when no peer is
registered under that key, and otherwise returns the registered peer's
`mockInvoke` response for the caller's current transaction id and the given
arguments. -/
theorem invokeChaincode_spec (st : ChaincodeMockStub) (chaincodeName : String)
    (args : List Bytes) (channel : String) :
    (objGet st.invokables
        (if channel ≠ "" then chaincodeName ++ "/" ++ channel
         else chaincodeName) = none →
      invokeChaincode st chaincodeName args channel =
        Except.error ("Chaincode " ++
          (if channel ≠ "" then chaincodeName ++ "/" ++ channel
           else chaincodeName) ++
          " could not be found. Please create this using mockPeerChaincode."))
    ∧ ∀ p, objGet st.invokables
        (if channel ≠ "" then chaincodeName ++ "/" ++ channel
         else chaincodeName) = some p →
      invokeChaincode st chaincodeName args channel =
        Except.ok (p.mockInvoke st.txID args) := by
  constructor
  · intro h
    by_cases hch : channel = ""
    · rw [if_neg (fun hn => hn hch)] at h
      simp [invokeChaincode, hch, h]
    · rw [if_pos hch] at h
      simp [invokeChaincode, hch, h]
  · intro p h
    by_cases hch : channel = ""
    · rw [if_neg (fun hn => hn hch)] at h
      simp [invokeChaincode, hch, h]
    · rw [if_pos hch] at h
      simp [invokeChaincode, hch, h]

/-- A registered peer whose `mockInvoke` echoes the transaction id it was
begun with in the response message. -/
def peerResponder : Peer :=
  { mockInvoke := fun uuid _ =>
      { status := 200, message := uuid.getD "undefined", payload := [42] } }

/-- A caller stub in transaction `"t1"` with `peerResponder` registered as
peer chaincode `"cc2"`. -/
def stubWithPeer : ChaincodeMockStub :=
  mockPeerChaincode (mockTransactionStart freshStub "t1") "cc2" peerResponder

/-- C7, witness for `invokeChaincode_spec`: invoking the registered peer
`"cc2"` on the empty channel yields its response carrying the caller's
transaction id `"t1"`; an unregistered channel-qualified name fails. -/
theorem invokeChaincode_spec_witness :
    invokeChaincode stubWithPeer "cc2" [[1]] "" =
      Except.ok { status := 200, message := "t1", payload := [42] }
    ∧ invokeChaincode stubWithPeer "missing" [] "ch" =
        Except.error
          "Chaincode missing/ch could not be found. Please create this using mockPeerChaincode." :=
  ⟨(invokeChaincode_spec stubWithPeer "cc2" [[1]] "").2 peerResponder rfl,
    (invokeChaincode_spec stubWithPeer "missing" [] "ch").1 rfl⟩

/-! ### C8: getStateByPartialCompositeKey -/

/-- C8: for every object type and attribute list,
`getStateByPartialCompositeKey` returns exactly the result of
`getStateByRange` from the composite key of the arguments to that key
extended with `MAX_UNICODE_RUNE_VALUE`. -/
theorem getStateByPartialCompositeKey_eq_range (st : ChaincodeMockStub)
    (objectType : String) (attributes : List String) :
    getStateByPartialCompositeKey st objectType attributes
      = getStateByRange st (createCompositeKey objectType attributes)
          (createCompositeKey objectType attributes ++ MAX_UNICODE_RUNE_VALUE) :=
  rfl

/-! ### C9: private-data isolation -/

/-- C9: private collections are pairwise isolated and invisible from the
main state store.  A successful `putPrivateData(c₁, k, v)` leaves the main
state and history untouched and every other collection `c₂ ≠ c₁` unchanged
(so the written value is never returned by `getPrivateData(c₂, k)` nor by
`getState(k)` unless it was already there); conversely `putState` and
`deleteState` never touch the private collections, and `deletePrivateData`
changes nothing observable (its `Map.prototype.delete` call operates on the
never-populated internal Map table, not on the stored properties). -/
theorem privateData_isolation :
    (∀ (st : ChaincodeMockStub) (c₁ k : String) (v : Bytes)
        (st' : ChaincodeMockStub),
      putPrivateData st c₁ k v = Except.ok st' →
        st'.state = st.state
        ∧ st'.history = st.history
        ∧ ∀ c₂, c₂ ≠ c₁ →
            ∀ k', getPrivateData st' c₂ k' = getPrivateData st c₂ k')
    ∧ (∀ (st : ChaincodeMockStub) (k : String) (v : Bytes)
          (st' : ChaincodeMockStub),
        putState st k v = Except.ok st' →
          st'.privateCollections = st.privateCollections)
    ∧ (∀ (st : ChaincodeMockStub) (k : String) (st' : ChaincodeMockStub),
        deleteState st k = Except.ok st' →
          st'.privateCollections = st.privateCollections)
    ∧ ∀ (st : ChaincodeMockStub) (c k : String),
        deletePrivateData st c k = st := by
  refine ⟨?_, ?_, ?_, fun st c k => rfl⟩
  · intro st c₁ k v st' h
    unfold putPrivateData at h
    by_cases hg : st.txID = some ""
    · rw [if_pos hg] at h
      exact absurd h (by simp)
    · rw [if_neg hg] at h
      simp only [Except.ok.injEq] at h
      subst h
      refine ⟨rfl, rfl, fun c₂ hc k' => ?_⟩
      simp only [getPrivateData]
      rw [objGet_objSet_ne st.privateCollections hc]
  · intro st k v st' h
    unfold putState at h
    by_cases hg : st.txID = some ""
    · rw [if_pos hg] at h
      exact absurd h (by simp)
    · rw [if_neg hg] at h
      simp only [Except.ok.injEq] at h
      subst h
      rfl
  · intro st k st' h
    unfold deleteState at h
    cases hl : objGet st.history k with
    | none =>
        rw [hl] at h
        exact absurd h (by simp)
    | some log =>
        rw [hl] at h
        simp only [Except.ok.injEq] at h
        subst h
        rfl

/-- The stub obtained by writing `[9]` under key `"k"` of private collection
`"C1"` inside transaction `"t1"`. -/
def stubPrivAfter : ChaincodeMockStub :=
  { txID := some "t1"
    privateCollections := [("C1", [("k", [9])])] }

/-- C9, witness for `privateData_isolation` on the concrete private write
building `stubPrivAfter`: collection `"C2"` and the main state stay empty. -/
theorem privateData_isolation_witness :
    (stubPrivAfter.state = (mockTransactionStart freshStub "t1").state
      ∧ stubPrivAfter.history = (mockTransactionStart freshStub "t1").history
      ∧ ∀ c₂, c₂ ≠ "C1" → ∀ k',
          getPrivateData stubPrivAfter c₂ k' =
            getPrivateData (mockTransactionStart freshStub "t1") c₂ k')
    ∧ getPrivateData stubPrivAfter "C2" "k" = none
    ∧ getState stubPrivAfter "k" = none :=
  ⟨privateData_isolation.1 (mockTransactionStart freshStub "t1") "C1" "k" [9]
      stubPrivAfter rfl, rfl, rfl⟩

/-! ### C10: deleteState on a never-written key -/

/-- C10: on a key with no history entry, `deleteState` does not resolve
successfully: the source's `this.history[key].push(...)` dereferences
`undefined` and throws, so the operation only completes for keys with prior
history. -/
theorem deleteState_unknown_key (st : ChaincodeMockStub) (k : String)
    (h : objGet st.history k = none) :
    deleteState st k =
      Except.error "TypeError: cannot read property push of undefined" := by
  unfold deleteState
  rw [h]

/-- C10, witness for `deleteState_unknown_key`: deleting the never-written
key `"ghost"` on a fresh stub throws. -/
theorem deleteState_unknown_key_witness :
    objGet freshStub.history "ghost" = none
    ∧ deleteState freshStub "ghost" =
        Except.error "TypeError: cannot read property push of undefined" :=
  ⟨rfl, deleteState_unknown_key freshStub "ghost" rfl⟩
